import Mathlib

/-!
Verification of the MeetingMind real-time audio/control channel core.

This file gives a shallow embedding, in Lean 4, of the parts of the
MeetingMind TypeScript sources relevant to the frozen specification claims:

* `src/utils/storage.ts` (`StorageManager`): localStorage-backed persistence
  of API credentials and session-id lists, including the `btoa`/`atob`
  base64 obfuscation layer and the `JSON.stringify`/`JSON.parse` codec.
* `src/utils/pcm-encoder.ts` (`PCMEncoder`): float → 16-bit PCM encoding and
  RMS level computation.
* `src/hooks/useWebSocket.ts`: the WebSocket channel state machine with
  exponential backoff reconnection (`calculateBackoffDelay`, `handleConnect`,
  `handleDisconnect`, `sendAudio`).
* `src/hooks/useApiConfig.ts`: credential validation
  (`validateCredentials`, `validateDashScopeKey`, `validateNLSToken`).
* `src/utils/constants.ts`: the numeric configuration constants.

JavaScript strings are modelled as lists of UTF-16 code units (`JSString`),
JavaScript exceptions as `Except`/`Option` results, and the browser
environment primitives (`btoa`, `atob`, `JSON.parse`, `JSON.stringify`,
`localStorage`, `WebSocket`) as executable Lean functions that follow their
standard semantics on the fragments exercised by this code.
-/

namespace MeetingMind

/-- A JavaScript string: the list of its UTF-16 code units. -/
abbrev JSString := List Nat

/-! ### The base64 layer: `btoa` / `atob`

`StorageManager.saveCredentials` stores `btoa(JSON.stringify(credentials))`
and `getCredentials` reads it back through `atob`.  `btoa` succeeds exactly
when every code unit of its argument is below 256 (otherwise the browser
throws `InvalidCharacterError`), and encodes those bytes in base64. -/

/-- The 64-character base64 alphabet `A-Z a-z 0-9 + /`, as code units. -/
def base64Alphabet : List Nat :=
  [65, 66, 67, 68, 69, 70, 71, 72, 73, 74, 75, 76, 77, 78, 79, 80, 81, 82,
   83, 84, 85, 86, 87, 88, 89, 90,
   97, 98, 99, 100, 101, 102, 103, 104, 105, 106, 107, 108, 109, 110, 111,
   112, 113, 114, 115, 116, 117, 118, 119, 120, 121, 122,
   48, 49, 50, 51, 52, 53, 54, 55, 56, 57, 43, 47]

/-- The code unit encoding a six-bit value. -/
def sextetChar (n : Nat) : Nat := base64Alphabet.getD n 0

/-- The six-bit value of an alphabet code unit, `none` for non-alphabet
characters (in particular for the padding character `=`, code 61). -/
def charSextet (c : Nat) : Option Nat := base64Alphabet.findIdx? (fun x => x = c)

/-- Base64 encoding of a byte list, processed in groups of three bytes with
`=` (code 61) padding, exactly as `btoa` produces it. -/
def base64EncodeBytes : List Nat → List Nat
  | [] => []
  | [a] => [sextetChar (a / 4), sextetChar (a % 4 * 16), 61, 61]
  | [a, b] => [sextetChar (a / 4), sextetChar (a % 4 * 16 + b / 16),
               sextetChar (b % 16 * 4), 61]
  | a :: b :: c :: rest =>
      sextetChar (a / 4) :: sextetChar (a % 4 * 16 + b / 16) ::
      sextetChar (b % 16 * 4 + c / 64) :: sextetChar (c % 64) ::
      base64EncodeBytes rest

/-- Base64 decoding of a padded base64 text, in groups of four characters;
`none` on any malformed input (wrong length, character outside the alphabet,
or misplaced padding), where `atob` throws. -/
def base64DecodeGroups : List Nat → Option (List Nat)
  | [] => some []
  | c1 :: c2 :: c3 :: c4 :: rest =>
    match charSextet c1, charSextet c2 with
    | some s1, some s2 =>
      if c3 = 61 then
        if c4 = 61 ∧ rest = [] then some [s1 * 4 + s2 / 16] else none
      else
        match charSextet c3 with
        | some s3 =>
          if c4 = 61 then
            if rest = [] then some [s1 * 4 + s2 / 16, s2 % 16 * 16 + s3 / 4]
            else none
          else
            match charSextet c4 with
            | some s4 =>
              (base64DecodeGroups rest).map
                (fun bs => (s1 * 4 + s2 / 16) :: (s2 % 16 * 16 + s3 / 4) ::
                           (s3 % 4 * 64 + s4) :: bs)
            | none => none
        | none => none
    | _, _ => none
  | _ => none

/-- Message of the DOM exception raised by `btoa`/`atob` on bad input. -/
def invalidCharacterErr : String := "InvalidCharacterError"

/-- Browser `btoa`: base64 of the code units, provided all are below 256;
otherwise an `InvalidCharacterError` is thrown. -/
def btoa (s : JSString) : Except String JSString :=
  if s.all (fun c => c < 256) then .ok (base64EncodeBytes s)
  else .error invalidCharacterErr

/-- Browser `atob`: inverse of `btoa`, throwing on malformed base64. -/
def atob (s : JSString) : Except String JSString :=
  match base64DecodeGroups s with
  | some bs => .ok bs
  | none => .error invalidCharacterErr

/-! ### The JSON layer: `JSON.stringify` / `JSON.parse`

`StorageManager` serializes credentials (a flat object of two strings) and
session lists (arrays of strings) with `JSON.stringify` and reads them back
with `JSON.parse`.  The parser below implements the full JSON grammar
(objects, arrays, strings with escapes, numerals, `true`/`false`/`null`),
so that parse failure in the model coincides with `JSON.parse` throwing.
Numerals are kept as raw validated tokens (their floating-point value is
never observed by the storage code). -/

/-- The code unit of a hexadecimal digit, lowercase, as produced by
`JSON.stringify` in `\u00XX` escapes. -/
def hexDigitChar (n : Nat) : Nat := if n < 10 then 48 + n else 87 + n

/-- Escaping of one code unit inside a `JSON.stringify` string literal:
quote and backslash get two-character escapes, control characters get their
short escapes or `\u00XX`, everything else is passed through. -/
def escapeChar (c : Nat) : List Nat :=
  if c = 34 then [92, 34]
  else if c = 92 then [92, 92]
  else if c = 8 then [92, 98]
  else if c = 9 then [92, 116]
  else if c = 10 then [92, 110]
  else if c = 12 then [92, 102]
  else if c = 13 then [92, 114]
  else if c < 32 then [92, 117, 48, 48, hexDigitChar (c / 16), hexDigitChar (c % 16)]
  else [c]

/-- Leading (high) surrogate code unit test, U+D800 to U+DBFF. -/
def isHighSurrogate (c : Nat) : Bool := 55296 ≤ c && c ≤ 56319

/-- Trailing (low) surrogate code unit test, U+DC00 to U+DFFF. -/
def isLowSurrogate (c : Nat) : Bool := 56320 ≤ c && c ≤ 57343

/-- A four-hex-digit `\uXXXX` escape of one code unit, as well-formed
`JSON.stringify` (ES2019) emits for lone surrogates. -/
def escapeU (c : Nat) : List Nat :=
  [92, 117, hexDigitChar (c / 4096 % 16), hexDigitChar (c / 256 % 16),
   hexDigitChar (c / 16 % 16), hexDigitChar (c % 16)]

/-- Escaped body of a string literal, following well-formed `JSON.stringify`
(ES2019): a leading surrogate directly followed by a trailing surrogate is
passed through as the pair; a lone surrogate (leading without trailing, or
unpaired trailing) is escaped as `\uXXXX`; all other units go through
`escapeChar`. -/
def escapeString : JSString → JSString
  | [] => []
  | c :: rest =>
    if isHighSurrogate c then
      match rest with
      | c2 :: rest2 =>
        if isLowSurrogate c2 then c :: c2 :: escapeString rest2
        else escapeU c ++ escapeString (c2 :: rest2)
      | [] => escapeU c
    else if isLowSurrogate c then escapeU c ++ escapeString rest
    else escapeChar c ++ escapeString rest

/-- A complete JSON string literal: quote, escaped body, quote. -/
def quoteStr (s : JSString) : JSString := 34 :: escapeString s ++ [34]

/-- JSON values, as returned by `JSON.parse`.  Numerals are kept as their
raw source token. -/
inductive JSValue : Type where
  | null : JSValue
  | bool : Bool → JSValue
  | num : JSString → JSValue
  | str : JSString → JSValue
  | arr : List JSValue → JSValue
  | obj : List (JSString × JSValue) → JSValue

/-- JSON insignificant whitespace (space, tab, line feed, carriage return). -/
def isWsChar (c : Nat) : Bool := c = 32 || c = 9 || c = 10 || c = 13

/-- Drop leading JSON whitespace. -/
def skipWs : JSString → JSString
  | [] => []
  | c :: rest => if isWsChar c then skipWs rest else c :: rest

/-- Value of one hexadecimal digit (either case), `none` otherwise. -/
def hexVal (c : Nat) : Option Nat :=
  if 48 ≤ c ∧ c ≤ 57 then some (c - 48)
  else if 97 ≤ c ∧ c ≤ 102 then some (c - 87)
  else if 65 ≤ c ∧ c ≤ 70 then some (c - 55)
  else none

/-- Decoded code unit of a one-character JSON string escape. -/
def escCode (e : Nat) : Option Nat :=
  if e = 34 then some 34
  else if e = 92 then some 92
  else if e = 47 then some 47
  else if e = 98 then some 8
  else if e = 102 then some 12
  else if e = 110 then some 10
  else if e = 114 then some 13
  else if e = 116 then some 9
  else none

/-- Prepend a decoded code unit to a string-parse result. -/
def consFst (c : Nat) : Option (JSString × JSString) → Option (JSString × JSString)
  | some (s, r) => some (c :: s, r)
  | none => none

/-- Parse the body of a JSON string literal (after the opening quote),
returning the decoded contents and the input following the closing quote. -/
def parseStringBody : JSString → Option (JSString × JSString)
  | [] => none
  | c :: rest =>
    if c = 34 then some ([], rest)
    else if c = 92 then
      match rest with
      | [] => none
      | 117 :: h1 :: h2 :: h3 :: h4 :: rest2 =>
        match hexVal h1, hexVal h2, hexVal h3, hexVal h4 with
        | some a, some b, some d, some e =>
            consFst (a * 4096 + b * 256 + d * 16 + e) (parseStringBody rest2)
        | _, _, _, _ => none
      | e :: rest2 =>
        match escCode e with
        | some ec => consFst ec (parseStringBody rest2)
        | none => none
    else if c < 32 then none
    else consFst c (parseStringBody rest)

/-- Decimal digit test. -/
def isDigit (c : Nat) : Bool := 48 ≤ c && c ≤ 57

/-- Characters that can occur in a JSON numeral token. -/
def isNumChar (c : Nat) : Bool :=
  isDigit c || c = 45 || c = 43 || c = 46 || c = 101 || c = 69

/-- Maximal-munch numeral token (a superset of the JSON numeral grammar;
the storage code never evaluates numerals, so only tokenization matters). -/
def parseNumberToken (s : JSString) : Option (JSString × JSString) :=
  let tok := s.takeWhile isNumChar
  if tok.isEmpty then none else some (tok, s.dropWhile isNumChar)

mutual

/-- Recursive-descent JSON value parser.  The fuel argument only bounds the
recursion depth; `jsonParse` supplies enough fuel for any input. -/
def parseValue : Nat → JSString → Option (JSValue × JSString)
  | 0, _ => none
  | fuel + 1, s =>
    match skipWs s with
    | [] => none
    | c :: rest =>
      if c = 34 then
        match parseStringBody rest with
        | some (body, r) => some (.str body, r)
        | none => none
      else if c = 123 then
        match parseMembers fuel rest with
        | some (ms, r) => some (.obj ms, r)
        | none => none
      else if c = 91 then
        match parseElems fuel rest with
        | some (vs, r) => some (.arr vs, r)
        | none => none
      else if c = 116 then
        match rest with
        | 114 :: 117 :: 101 :: r => some (.bool true, r)
        | _ => none
      else if c = 102 then
        match rest with
        | 97 :: 108 :: 115 :: 101 :: r => some (.bool false, r)
        | _ => none
      else if c = 110 then
        match rest with
        | 117 :: 108 :: 108 :: r => some (.null, r)
        | _ => none
      else
        match parseNumberToken (c :: rest) with
        | some (tok, r) => some (.num tok, r)
        | none => none

/-- Members of a JSON object, after the opening brace. -/
def parseMembers : Nat → JSString → Option (List (JSString × JSValue) × JSString)
  | 0, _ => none
  | fuel + 1, s =>
    match skipWs s with
    | 125 :: rest => some ([], rest)
    | 34 :: rest =>
      match parseStringBody rest with
      | some (key, r1) =>
        match skipWs r1 with
        | 58 :: r2 =>
          match parseValue fuel r2 with
          | some (v, r3) =>
            match parseObjRest fuel r3 with
            | some (ms, r4) => some ((key, v) :: ms, r4)
            | none => none
          | none => none
        | _ => none
      | none => none
    | _ => none

/-- Remaining members of a JSON object, after the first member. -/
def parseObjRest : Nat → JSString → Option (List (JSString × JSValue) × JSString)
  | 0, _ => none
  | fuel + 1, s =>
    match skipWs s with
    | 125 :: rest => some ([], rest)
    | 44 :: rest =>
      match skipWs rest with
      | 34 :: r1 =>
        match parseStringBody r1 with
        | some (key, r2) =>
          match skipWs r2 with
          | 58 :: r3 =>
            match parseValue fuel r3 with
            | some (v, r4) =>
              match parseObjRest fuel r4 with
              | some (ms, r5) => some ((key, v) :: ms, r5)
              | none => none
            | none => none
          | _ => none
        | none => none
      | _ => none
    | _ => none

/-- Elements of a JSON array, after the opening bracket. -/
def parseElems : Nat → JSString → Option (List JSValue × JSString)
  | 0, _ => none
  | fuel + 1, s =>
    match skipWs s with
    | 93 :: rest => some ([], rest)
    | s1 =>
      match parseValue fuel s1 with
      | some (v, r) =>
        match parseArrayRest fuel r with
        | some (vs, r2) => some (v :: vs, r2)
        | none => none
      | none => none

/-- Remaining elements of a JSON array, after the first element. -/
def parseArrayRest : Nat → JSString → Option (List JSValue × JSString)
  | 0, _ => none
  | fuel + 1, s =>
    match skipWs s with
    | 93 :: rest => some ([], rest)
    | 44 :: rest =>
      match parseValue fuel rest with
      | some (v, r) =>
        match parseArrayRest fuel r with
        | some (vs, r2) => some (v :: vs, r2)
        | none => none
      | none => none
    | _ => none

end

/-- Model of `JSON.parse`: parse one value, require only whitespace after
it; `none` where `JSON.parse` throws a `SyntaxError`. -/
def jsonParse (s : JSString) : Option JSValue :=
  match parseValue (2 * s.length + 2) s with
  | some (v, rest) => if (skipWs rest).isEmpty then some v else none
  | none => none

/-! ### Credentials and session lists as stored by `StorageManager` -/

/-- The `ApiCredentials` interface from `src/types/index.ts`: a pair of
opaque secret strings. -/
structure ApiCredentials : Type where
  nlsToken : JSString
  dashScopeKey : JSString
deriving DecidableEq

/-- The code units of the property name `nlsToken`. -/
def nlsTokenKey : JSString := [110, 108, 115, 84, 111, 107, 101, 110]

/-- The code units of the property name `dashScopeKey`. -/
def dashScopeKeyKey : JSString := [100, 97, 115, 104, 83, 99, 111, 112, 101, 75, 101, 121]

/-- Serialization `JSON.stringify` of an `ApiCredentials` object: a two-member JSON
object with the fields in declaration order and no whitespace. -/
def stringifyCreds (c : ApiCredentials) : JSString :=
  123 :: (quoteStr nlsTokenKey ++ 58 :: quoteStr c.nlsToken ++
          44 :: quoteStr dashScopeKeyKey ++ 58 :: quoteStr c.dashScopeKey ++ [125])

/-- The `JSValue` that `JSON.parse` recovers from `stringifyCreds`. -/
def credsValue (c : ApiCredentials) : JSValue :=
  .obj [(nlsTokenKey, .str c.nlsToken), (dashScopeKeyKey, .str c.dashScopeKey)]

/-- Serialized tail of a nonempty JSON string array: `,"x"` for each element. -/
def strListTail : List JSString → JSString
  | [] => []
  | x :: xs => 44 :: (quoteStr x ++ strListTail xs)

/-- Serialization `JSON.stringify` of an array of strings, matching
`JSON.stringify(sessionIds)` in `StorageManager.saveSessions`. -/
def stringifyStringList : List JSString → JSString
  | [] => [91, 93]
  | x :: xs => 91 :: (quoteStr x ++ strListTail xs) ++ [93]

/-! ### The `localStorage` state and `StorageManager`

`localStorage` is modelled as one optional stored string per storage key
used by `StorageManager` (`meetingmind.credentials`, `meetingmind.sessions`,
`meetingmind.settings`, `meetingmind.cache` — the keys are distinct string
constants, so a field per key is faithful).  Methods that `throw` return
`Except.error`; methods whose `try`/`catch` swallows the exception return
their fallback value. -/

structure LocalStorage : Type where
  credentials : Option JSString
  sessions : Option JSString
  settings : Option JSString
  cache : Option JSString
deriving DecidableEq

/-- A cleared `localStorage`. -/
def emptyStorage : LocalStorage := ⟨none, none, none, none⟩

/-- Error thrown by `StorageManager.saveCredentials` when `btoa` fails. -/
def failedSaveCredentialsMsg : String := "Failed to save API credentials"

/-- Method `StorageManager.saveCredentials`: stores `btoa(JSON.stringify(credentials))`
under the credentials key; rethrows as a `Failed to save API credentials`
error when `btoa` throws (leaving the store unchanged). -/
def saveCredentials (credentials : ApiCredentials) (st : LocalStorage) :
    Except String LocalStorage :=
  match btoa (stringifyCreds credentials) with
  | .ok encrypted => .ok { st with credentials := some encrypted }
  | .error _ => .error failedSaveCredentialsMsg

/-- Method `StorageManager.getCredentials`: reads the stored string, decodes it with
`atob` and `JSON.parse`; returns `null` (`none`) when the key is absent or
any step of the decode throws (the `catch` branch).  The parsed value is
returned as-is — the TypeScript cast `as ApiCredentials` performs no shape
check. -/
def getCredentials (st : LocalStorage) : Option JSValue :=
  match st.credentials with
  | none => none
  | some encrypted =>
    match atob encrypted with
    | .ok decrypted => jsonParse decrypted
    | .error _ => none

/-- Method `StorageManager.getSettings`: `JSON.parse` of the stored string; `null`
when absent or on parse failure (the `catch` branch). -/
def getSettings (st : LocalStorage) : Option JSValue :=
  match st.settings with
  | none => none
  | some s => jsonParse s

/-- Method `StorageManager.saveSessions`: stores `JSON.stringify(sessionIds)`.
(`JSON.stringify` of an array of strings never throws, so the `catch`
branch is dead on this path.) -/
def saveSessions (sessionIds : List JSString) (st : LocalStorage) : LocalStorage :=
  { st with sessions := some (stringifyStringList sessionIds) }

/-- Method `StorageManager.getSessions`: `JSON.parse` of the stored string; the
empty array when the key is absent or parsing throws (the `catch` branch).
As with `getCredentials`, a successfully parsed value is returned without a
shape check. -/
def getSessions (st : LocalStorage) : JSValue :=
  match st.sessions with
  | none => .arr []
  | some s =>
    match jsonParse s with
    | some v => v
    | none => .arr []

/-- JavaScript strict equality of a parsed array element against a string,
as used by `sessions.includes(sessionId)`: true exactly for an equal
string; a non-string element is never `===` to a string. -/
def jsStrEq (v : JSValue) (s : JSString) : Bool :=
  match v with
  | .str t => decide (t = s)
  | _ => false

/-- Recover the element strings from a parsed session array; `none` when an
element is not a string (such states are unreachable through `addSession`
and would make the original code misbehave on `JSON.stringify`). -/
def asStringList : List JSValue → Option (List JSString)
  | [] => some []
  | .str s :: rest => (asStringList rest).map (fun l => s :: l)
  | _ => none

/-- A `TypeError`, raised when the stored sessions value is not an array of
strings and `addSession` calls array methods on it.  Unreachable from
`addSession`-only histories. -/
def typeErrMsg : String := "TypeError"

/-- Method `StorageManager.addSession`: read the sessions, no-op if the id is
already present; otherwise `unshift` the id to the front, truncate with
`splice(50)` when more than 50 entries remain, and save. -/
def addSession (sessionId : JSString) (st : LocalStorage) : Except String LocalStorage :=
  match getSessions st with
  | .arr l =>
    if l.any (fun v => jsStrEq v sessionId) then .ok st
    else
      match asStringList l with
      | some strs =>
        let l2 := sessionId :: strs
        .ok (saveSessions (if l2.length > 50 then l2.take 50 else l2) st)
      | none => .error typeErrMsg
  | _ => .error typeErrMsg

/-- Iterated `addSession`, failing on the first error. -/
def addSessionsRun : List JSString → LocalStorage → Except String LocalStorage
  | [], st => .ok st
  | sessionId :: rest, st =>
    match addSession sessionId st with
    | .ok st2 => addSessionsRun rest st2
    | .error e => .error e

/-- A store already holding the credentials pair `("a", "b")`, used as the
previously-stored state in concrete evaluations. -/
def storeWithAB : LocalStorage :=
  match saveCredentials ⟨[97], [98]⟩ emptyStorage with
  | .ok st => st
  | .error _ => emptyStorage

/-- One `addSession` step at the level of the stored id list: no-op when
present, otherwise unshift and truncate to 50. -/
def sessionsStep (l : List JSString) (sessionId : JSString) : List JSString :=
  if sessionId ∈ l then l
  else if (sessionId :: l).length > 50 then (sessionId :: l).take 50 else sessionId :: l

/-- The stored id list after a history of `addSession` calls from a cleared
store. -/
def sessionsAfter (ids : List JSString) : List JSString := ids.foldl sessionsStep []

/-- Relation between a store and the id list it holds: the sessions slot is
absent (empty history) or holds the serialized list, which is
duplicate-free and at most 50 long. -/
def SessionsGood (st : LocalStorage) (l : List JSString) : Prop :=
  (st.sessions = none ∧ l = [] ∨ st.sessions = some (stringifyStringList l)) ∧
    l.Nodup ∧ l.length ≤ 50

/-! ### PCMEncoder (`src/utils/pcm-encoder.ts`)

Sample values are modelled as exact numbers: rationals for the encode path
(every step there is exact float arithmetic on clamped values followed by
integer truncation) and reals for the RMS path (which takes a square root).
-/

/-- JavaScript `Math.min` on numbers (NaN never arises on the modelled paths). -/
def jsMin (a b : ℚ) : ℚ := if a ≤ b then a else b

/-- JavaScript `Math.max` on numbers. -/
def jsMax (a b : ℚ) : ℚ := if a ≤ b then b else a

/-- The clamp `Math.max(-1, Math.min(1, audioData[i]))` in `encode`. -/
def clampSample (x : ℚ) : ℚ := jsMax (-1) (jsMin 1 x)

/-- The scale step `sample < 0 ? sample * 0x8000 : sample * 0x7FFF`. -/
def scaleSample (x : ℚ) : ℚ := if x < 0 then x * 32768 else x * 32767

/-- JavaScript ToInteger truncation (toward zero), applied by
`DataView.setInt16` to its number argument. -/
def jsTrunc (x : ℚ) : ℤ := if x < 0 then -⌊-x⌋ else ⌊x⌋

/-- Wrap into the signed 16-bit range, as `setInt16` stores the integer. -/
def toInt16 (n : ℤ) : ℤ := (n + 32768) % 65536 - 32768

/-- The 16-bit code `PCMEncoder.encode` produces for one sample. -/
def encodeSample (x : ℚ) : ℤ := toInt16 (jsTrunc (scaleSample (clampSample x)))

/-- The two bytes `setInt16(2*i, pcmSample, true)` writes (little-endian). -/
def int16Bytes (v : ℤ) : List Nat :=
  [(v % 65536).toNat % 256, (v % 65536).toNat / 256]

/-- Method `PCMEncoder.encode`: the output `ArrayBuffer` as its byte list, two
bytes per input sample. -/
def encode (audioData : List ℚ) : List Nat :=
  (audioData.map (fun s => int16Bytes (encodeSample s))).flatten

/-- Method `PCMEncoder.calculateRMS`: square root of the mean of squares.  For the
empty input JavaScript computes `0/0 = NaN` and `Math.sqrt(NaN) = NaN`; the
explicit length-zero branch returning `none` renders that NaN result. -/
noncomputable def calculateRMS (audioData : List ℝ) : Option ℝ :=
  if audioData.length = 0 then none
  else some (Real.sqrt ((audioData.map (fun x => x * x)).sum / audioData.length))

/-! ### Reconnection backoff (`useWebSocket.ts` and `constants.ts`) -/

/-- Constant `WEBSOCKET_CONFIG.RECONNECT_DELAY` (milliseconds). -/
def WEBSOCKET_RECONNECT_DELAY : ℚ := 1000

/-- Constant `WEBSOCKET_CONFIG.MAX_RECONNECT_DELAY` (milliseconds). -/
def WEBSOCKET_MAX_RECONNECT_DELAY : ℚ := 30000

/-- Constant `WEBSOCKET_CONFIG.BACKOFF_MULTIPLIER`. -/
def WEBSOCKET_BACKOFF_MULTIPLIER : ℚ := 2

/-- Constant `WEBSOCKET_CONFIG.RECONNECT_ATTEMPTS`. -/
def WEBSOCKET_RECONNECT_ATTEMPTS : ℕ := 5

/-- JavaScript `config.field || default` for an optional numeric field: the
default applies when the field is absent or falsy (0). -/
def jsOrDefault (v : Option ℚ) (d : ℚ) : ℚ :=
  match v with
  | none => d
  | some x => if x = 0 then d else x

/-- Function `calculateBackoffDelay` from `useWebSocket`:
`min(baseDelay * multiplier ^ attempt, maxDelay)`. -/
def calculateBackoffDelay (configReconnectDelay : Option ℚ) (attempt : ℕ) : ℚ :=
  let baseDelay := jsOrDefault configReconnectDelay WEBSOCKET_RECONNECT_DELAY
  let maxDelay := WEBSOCKET_MAX_RECONNECT_DELAY
  let multiplier := WEBSOCKET_BACKOFF_MULTIPLIER
  let delay := baseDelay * multiplier ^ attempt
  jsMin delay maxDelay

/-! ### The WebSocket channel state machine (`useWebSocket.ts`)

The hook state (the `connectionState`/`error` React state plus the
`wsRef`/`reconnectTimeoutRef`/`reconnectAttemptsRef`/`isManuallyClosedRef`
refs) is an explicit record, and each handler is a function on it.  Events
of the current transport (`onopen`, `onclose`, `onerror`), timer firing,
and the success of the `new WebSocket` constructor and of `ws.send` are
inputs.  `transmitted`, `socketsCreated`, `abandonedSockets` and
`lastCloseCode` are observation-only instrumentation: `transmitted`
records the buffers passed to `ws.send`, `socketsCreated` counts
`new WebSocket` calls, `abandonedSockets` counts still-connecting
transports overwritten in `wsRef` without being closed, and
`lastCloseCode` records the code of the last explicit `ws.close` call. -/

/-- Browser `WebSocket.readyState` values. -/
inductive ReadyState : Type where
  | CONNECTING
  | OPEN
  | CLOSING
  | CLOSED
deriving DecidableEq

/-- The hook connection-state values. -/
inductive ConnState : Type where
  | connecting
  | connected
  | disconnected
  | error
deriving DecidableEq

/-- The per-channel mutable state of `useWebSocket`. -/
structure ChannelState : Type where
  connectionState : ConnState
  lastError : Option String
  ws : Option ReadyState
  reconnectAttempts : Nat
  reconnectTimer : Bool
  isManuallyClosed : Bool
  transmitted : List (List Nat)
  socketsCreated : Nat
  abandonedSockets : Nat
  lastCloseCode : Option Nat
deriving DecidableEq

/-- The hook state at mount: disconnected, no transport, no timer. -/
def initialChannel : ChannelState :=
  ⟨.disconnected, none, none, 0, false, false, [], 0, 0, none⟩

/-- Constant `ERROR_MESSAGES.WEBSOCKET_CONNECTION_FAILED`. -/
def wsConnFailedMsg : String :=
  "Failed to connect to the server. Please check your internet connection."

/-- Error set when the reconnect-attempt ceiling is exhausted. -/
def maxAttemptsMsg : String := "Maximum reconnection attempts exceeded"

/-- Error set when the `WebSocket` constructor throws. -/
def createFailedMsg : String := "Failed to create WebSocket connection"

/-- Error set when `ws.send` throws in `sendAudio`. -/
def sendAudioFailedMsg : String := "Failed to send audio data"

/-- Handler `handleConnect`: no-op when the current transport is `OPEN`; otherwise
set `connecting`, clear the error, clear the manual-close flag and create a
new transport (which may throw, `ctorOk = false`).  A previous
still-connecting transport is only overwritten, never closed. -/
def handleConnect (ctorOk : Bool) (s : ChannelState) : ChannelState :=
  if s.ws = some .OPEN then s
  else
    let s1 := { s with connectionState := .connecting, lastError := none,
                       isManuallyClosed := false }
    if ctorOk then
      { s1 with ws := some .CONNECTING,
                socketsCreated := s1.socketsCreated + 1,
                abandonedSockets :=
                  s1.abandonedSockets + (if s.ws = none then 0 else 1) }
    else
      { s1 with connectionState := .error, lastError := some createFailedMsg }

/-- Handler `ws.onopen`: connected, error cleared, attempt counter reset to 0. -/
def handleOpen (s : ChannelState) : ChannelState :=
  if s.ws = some .CONNECTING then
    { s with ws := some .OPEN, connectionState := .connected, lastError := none,
             reconnectAttempts := 0 }
  else s

/-- Handler `ws.onclose` of the current transport: drop the transport; when not
manually closed, either schedule a reconnect timer (attempts below the
ceiling) or enter the terminal `error` state; when manually closed, just
`disconnected`. -/
def handleClose (maxAttempts : Nat) (s : ChannelState) : ChannelState :=
  match s.ws with
  | none => s
  | some _ =>
    let s1 := { s with ws := none }
    if ¬ s.isManuallyClosed then
      if s.reconnectAttempts < maxAttempts then
        { s1 with connectionState := .disconnected, reconnectTimer := true }
      else
        { s1 with connectionState := .error, lastError := some maxAttemptsMsg }
    else
      { s1 with connectionState := .disconnected }

/-- Handler `ws.onerror`: surface the connection-failed message; enter `error`
unless the transport is open. -/
def handleError (s : ChannelState) : ChannelState :=
  let s1 := { s with lastError := some wsConnFailedMsg }
  if s.ws ≠ some .OPEN then { s1 with connectionState := .error } else s1

/-- The scheduled reconnect timeout firing: increment the attempt counter
and re-invoke `handleConnect`. -/
def timerFire (ctorOk : Bool) (s : ChannelState) : ChannelState :=
  if s.reconnectTimer then
    handleConnect ctorOk
      { s with reconnectTimer := false, reconnectAttempts := s.reconnectAttempts + 1 }
  else s

/-- Handler `handleDisconnect`: set the manual-close flag, cancel any pending
reconnect timer, close the transport with the normal-closure code 1000 (if
any), set `disconnected`, clear the error, reset the attempt counter. -/
def handleDisconnect (s : ChannelState) : ChannelState :=
  let s1 := { s with isManuallyClosed := true, reconnectTimer := false }
  match s.ws with
  | none => { s1 with connectionState := .disconnected, lastError := none,
                      reconnectAttempts := 0 }
  | some _ => { s1 with ws := none, lastCloseCode := some 1000,
                        connectionState := .disconnected, lastError := none,
                        reconnectAttempts := 0 }

/-- Handler `sendAudio`: warn-and-return when the transport is not `OPEN`
(completely unchanged state, nothing transmitted, no throw); otherwise
transmit the buffer (`sendOk = true`) or catch the send failure. -/
def sendAudio (pcmData : List Nat) (sendOk : Bool) (s : ChannelState) : ChannelState :=
  if s.ws ≠ some .OPEN then s
  else if sendOk then { s with transmitted := pcmData :: s.transmitted }
  else { s with lastError := some sendAudioFailedMsg }

/-- The event alphabet of one channel instance. -/
inductive ChannelEvent : Type where
  | connect (ctorOk : Bool)
  | openEvt
  | closeEvt
  | errorEvt
  | timer (ctorOk : Bool)
  | disconnectEvt
  | send (pcmData : List Nat) (sendOk : Bool)
deriving DecidableEq

/-- One step of the channel machine. -/
def channelStep (maxAttempts : Nat) (e : ChannelEvent) (s : ChannelState) : ChannelState :=
  match e with
  | .connect ctorOk => handleConnect ctorOk s
  | .openEvt => handleOpen s
  | .closeEvt => handleClose maxAttempts s
  | .errorEvt => handleError s
  | .timer ctorOk => timerFire ctorOk s
  | .disconnectEvt => handleDisconnect s
  | .send pcmData sendOk => sendAudio pcmData sendOk s

/-- Run of the channel machine over an event list. -/
def channelRun (maxAttempts : Nat) (es : List ChannelEvent) (s : ChannelState) : ChannelState :=
  es.foldl (fun t e => channelStep maxAttempts e t) s

/-- The channel invariant: the hook reports `connected` exactly while the
current transport is open. -/
def ChannelInv (s : ChannelState) : Prop :=
  s.connectionState = .connected ↔ s.ws = some .OPEN

/-- Number of still-connecting transports alive for this channel: abandoned
ones plus the current one if it is connecting. -/
def activeConnectingCount (s : ChannelState) : Nat :=
  s.abandonedSockets + (if s.ws = some .CONNECTING then 1 else 0)

/-- Whether an event is an external `connect()` call. -/
def isConnectEvent : ChannelEvent → Bool
  | .connect _ => true
  | _ => false

/-! ### Credential validation (`useApiConfig.ts`) -/

/-- Outcome of the DashScope probe `fetch`: an HTTP status, or a network
failure (the `catch` branch). -/
inductive FetchOutcome : Type where
  | status (code : Nat)
  | networkError
deriving DecidableEq

/-- Outcome of the NLS WebSocket probe: `onopen`, `onerror`, or the 5 s
timeout. -/
inductive NLSProbeOutcome : Type where
  | opened
  | socketError
  | timedOut
deriving DecidableEq

/-- Probe `validateNLSToken`: valid exactly when the probe socket opens. -/
def validateNLSToken (outcome : NLSProbeOutcome) : Bool :=
  match outcome with
  | .opened => true
  | .socketError => false
  | .timedOut => false

/-- Probe `validateDashScopeKey`: `response.status !== 401`, and network errors
are treated as potentially valid. -/
def validateDashScopeKey (outcome : FetchOutcome) : Bool :=
  match outcome with
  | .status code => decide (code ≠ 401)
  | .networkError => true

/-- The JavaScript `String.prototype.trim` whitespace set (WhiteSpace and
LineTerminator code points). -/
def isJSWhitespace (c : Nat) : Bool :=
  (9 ≤ c && c ≤ 13) || c = 32 || c = 160 || c = 5760 || (8192 ≤ c && c ≤ 8202) ||
  c = 8232 || c = 8233 || c = 8239 || c = 8287 || c = 12288 || c = 65279

/-- Test `!s.trim()`: the trimmed string is empty exactly when every code unit
is whitespace. -/
def trimIsEmpty (s : JSString) : Bool := s.all isJSWhitespace

/-- Function `validateCredentials`: reject empty/whitespace-only credentials locally
(before either probe); otherwise the conjunction of the two probe
validations. -/
def validateCredentials (creds : ApiCredentials) (nlsOutcome : NLSProbeOutcome)
    (dashOutcome : FetchOutcome) : Bool :=
  if trimIsEmpty creds.nlsToken || trimIsEmpty creds.dashScopeKey then false
  else validateNLSToken nlsOutcome && validateDashScopeKey dashOutcome

/-! ### Theorems -/

theorem charSextet_sextetChar_all : ∀ n < 64, charSextet (sextetChar n) = some n := by
  decide

theorem sextetChar_ne_61_all : ∀ n < 64, sextetChar n ≠ 61 := by
  decide

theorem charSextet_sextetChar {n : Nat} (h : n < 64) :
    charSextet (sextetChar n) = some n := charSextet_sextetChar_all n h

theorem sextetChar_ne_61 {n : Nat} (h : n < 64) : sextetChar n ≠ 61 :=
  sextetChar_ne_61_all n h

theorem base64_roundtrip :
    ∀ bs : List Nat, (∀ b ∈ bs, b < 256) →
      base64DecodeGroups (base64EncodeBytes bs) = some bs := by
  intro bs
  induction bs using base64EncodeBytes.induct with
  | case1 =>
    intro _
    rfl
  | case2 a =>
    intro h
    have ha : a < 256 := h a (by simp)
    have h1 : a / 4 < 64 := by omega
    have h2 : a % 4 * 16 < 64 := by omega
    simp only [base64EncodeBytes, base64DecodeGroups,
      charSextet_sextetChar h1, charSextet_sextetChar h2]
    norm_num
    omega
  | case3 a b =>
    intro h
    have ha : a < 256 := h a (by simp)
    have hb : b < 256 := h b (by simp)
    have h1 : a / 4 < 64 := by omega
    have h2 : a % 4 * 16 + b / 16 < 64 := by omega
    have h3 : b % 16 * 4 < 64 := by omega
    simp only [base64EncodeBytes, base64DecodeGroups,
      charSextet_sextetChar h1, charSextet_sextetChar h2,
      charSextet_sextetChar h3]
    norm_num
    rw [if_neg (sextetChar_ne_61 h3)]
    generalize hq : a % 4 * 16 + b / 16 = q
    simp only [Option.some.injEq, List.cons.injEq, and_true]
    omega
  | case4 a b c rest ih =>
    intro h
    have ha : a < 256 := h a (by simp)
    have hb : b < 256 := h b (by simp)
    have hc : c < 256 := h c (by simp)
    have hrest : ∀ x ∈ rest, x < 256 := fun x hx => h x (by simp [hx])
    have h1 : a / 4 < 64 := by omega
    have h2 : a % 4 * 16 + b / 16 < 64 := by omega
    have h3 : b % 16 * 4 + c / 64 < 64 := by omega
    have h4 : c % 64 < 64 := by omega
    simp only [base64EncodeBytes, base64DecodeGroups,
      charSextet_sextetChar h1, charSextet_sextetChar h2,
      charSextet_sextetChar h3, charSextet_sextetChar h4, ih hrest]
    norm_num
    rw [if_neg (sextetChar_ne_61 h3), if_neg (sextetChar_ne_61 h4)]
    generalize hq : a % 4 * 16 + b / 16 = q
    generalize hr : b % 16 * 4 + c / 64 = r
    simp only [Option.some.injEq, List.cons.injEq, and_true]
    omega

theorem atob_btoa (s : JSString) (h : ∀ c ∈ s, c < 256) :
    ∃ enc, btoa s = .ok enc ∧ atob enc = .ok s := by
  have hall : s.all (fun c => c < 256) = true := by
    rw [List.all_eq_true]
    intro x hx
    simpa using h x hx
  refine ⟨base64EncodeBytes s, ?_, ?_⟩
  · simp [btoa, hall]
  · simp [atob, base64_roundtrip s h]

theorem hexVal_hexDigitChar_all : ∀ n < 16, hexVal (hexDigitChar n) = some n := by
  decide

theorem parseStringBody_quote (r : JSString) : parseStringBody (34 :: r) = some ([], r) := by
  rw [parseStringBody.eq_def]
  simp

theorem parseStringBody_plain (c : Nat) (r : JSString) (h34 : c ≠ 34) (h92 : c ≠ 92)
    (hlt : ¬ c < 32) : parseStringBody (c :: r) = consFst c (parseStringBody r) := by
  rw [parseStringBody.eq_def]
  simp [h34, h92, hlt]

theorem parseStringBody_esc34 (r : JSString) :
    parseStringBody (92 :: 34 :: r) = consFst 34 (parseStringBody r) := rfl

theorem parseStringBody_esc92 (r : JSString) :
    parseStringBody (92 :: 92 :: r) = consFst 92 (parseStringBody r) := rfl

theorem parseStringBody_esc98 (r : JSString) :
    parseStringBody (92 :: 98 :: r) = consFst 8 (parseStringBody r) := rfl

theorem parseStringBody_esc116 (r : JSString) :
    parseStringBody (92 :: 116 :: r) = consFst 9 (parseStringBody r) := rfl

theorem parseStringBody_esc110 (r : JSString) :
    parseStringBody (92 :: 110 :: r) = consFst 10 (parseStringBody r) := rfl

theorem parseStringBody_esc102 (r : JSString) :
    parseStringBody (92 :: 102 :: r) = consFst 12 (parseStringBody r) := rfl

theorem parseStringBody_esc114 (r : JSString) :
    parseStringBody (92 :: 114 :: r) = consFst 13 (parseStringBody r) := rfl

theorem parseStringBody_escU (h1 h2 h3 h4 : Nat) (r : JSString) :
    parseStringBody (92 :: 117 :: h1 :: h2 :: h3 :: h4 :: r) =
      (match hexVal h1, hexVal h2, hexVal h3, hexVal h4 with
       | some a, some b, some d, some e =>
           consFst (a * 4096 + b * 256 + d * 16 + e) (parseStringBody r)
       | _, _, _, _ => none) := by
  rw [parseStringBody.eq_def]
  simp

theorem escapeString_pair (c c2 : Nat) (rest2 : JSString)
    (h1 : isHighSurrogate c = true) (h2 : isLowSurrogate c2 = true) :
    escapeString (c :: c2 :: rest2) = c :: c2 :: escapeString rest2 := by
  rw [escapeString.eq_def]
  simp [h1, h2]

theorem escapeString_highLone (c c2 : Nat) (rest2 : JSString)
    (h1 : isHighSurrogate c = true) (h2 : isLowSurrogate c2 = false) :
    escapeString (c :: c2 :: rest2) = escapeU c ++ escapeString (c2 :: rest2) := by
  rw [escapeString.eq_def]
  simp [h1, h2]

theorem escapeString_single (c : Nat) (h1 : isHighSurrogate c = true) :
    escapeString [c] = escapeU c := by
  rw [escapeString.eq_def]
  simp [h1]

theorem escapeString_low (c : Nat) (rest : JSString)
    (h1 : isHighSurrogate c = false) (h2 : isLowSurrogate c = true) :
    escapeString (c :: rest) = escapeU c ++ escapeString rest := by
  rw [escapeString.eq_def]
  simp [h1, h2]

theorem escapeString_other (c : Nat) (rest : JSString)
    (h1 : isHighSurrogate c = false) (h2 : isLowSurrogate c = false) :
    escapeString (c :: rest) = escapeChar c ++ escapeString rest := by
  rw [escapeString.eq_def]
  simp [h1, h2]

theorem parseStringBody_escapeU (c : Nat) (hc : c < 65536) (r : JSString) :
    parseStringBody (escapeU c ++ r) = consFst c (parseStringBody r) := by
  have h1 := hexVal_hexDigitChar_all (c / 4096 % 16) (by omega)
  have h2 := hexVal_hexDigitChar_all (c / 256 % 16) (by omega)
  have h3 := hexVal_hexDigitChar_all (c / 16 % 16) (by omega)
  have h4 := hexVal_hexDigitChar_all (c % 16) (by omega)
  have happ : escapeU c ++ r
      = 92 :: 117 :: hexDigitChar (c / 4096 % 16) :: hexDigitChar (c / 256 % 16)
        :: hexDigitChar (c / 16 % 16) :: hexDigitChar (c % 16) :: r := by
    simp [escapeU]
  have hval : c / 4096 % 16 * 4096 + c / 256 % 16 * 256 + c / 16 % 16 * 16 + c % 16 = c := by
    omega
  rw [happ, parseStringBody_escU, h1, h2, h3, h4]
  simp only [hval]

theorem parseStringBody_escape :
    ∀ s rest : JSString, parseStringBody (escapeString s ++ 34 :: rest) = some (s, rest) := by
  intro s
  induction s using escapeString.induct with
  | case1 =>
    intro rest
    have h : escapeString [] ++ 34 :: rest = 34 :: rest := by
      rw [escapeString.eq_def]
      simp
    rw [h, parseStringBody_quote]
  | case2 c hhigh c2 rest2 hlow ih =>
    intro rest
    have hc : 55296 ≤ c ∧ c ≤ 56319 := by
      simpa [isHighSurrogate] using hhigh
    have hc2 : 56320 ≤ c2 ∧ c2 ≤ 57343 := by
      simpa [isLowSurrogate] using hlow
    rw [escapeString_pair c c2 rest2 hhigh hlow]
    simp only [List.cons_append]
    rw [parseStringBody_plain c _ (by omega) (by omega) (by omega),
        parseStringBody_plain c2 _ (by omega) (by omega) (by omega), ih]
    rfl
  | case3 c hhigh c2 rest2 hlow ih =>
    intro rest
    have hc : 55296 ≤ c ∧ c ≤ 56319 := by
      simpa [isHighSurrogate] using hhigh
    rw [Bool.not_eq_true] at hlow
    rw [escapeString_highLone c c2 rest2 hhigh hlow, List.append_assoc,
        parseStringBody_escapeU c (by omega), ih]
    rfl
  | case4 c hhigh =>
    intro rest
    have hc : 55296 ≤ c ∧ c ≤ 56319 := by
      simpa [isHighSurrogate] using hhigh
    have h : escapeString [c] ++ 34 :: rest = escapeU c ++ 34 :: rest := by
      rw [escapeString_single c hhigh]
    rw [h, parseStringBody_escapeU c (by omega), parseStringBody_quote]
    rfl
  | case5 c s hhigh hlow ih =>
    intro rest
    have hc : 56320 ≤ c ∧ c ≤ 57343 := by
      simpa [isLowSurrogate] using hlow
    rw [Bool.not_eq_true] at hhigh
    rw [escapeString_low c s hhigh hlow, List.append_assoc,
        parseStringBody_escapeU c (by omega), ih]
    rfl
  | case6 c s hhigh hlow ih =>
    intro rest
    rw [Bool.not_eq_true] at hhigh hlow
    rw [escapeString_other c s hhigh hlow, List.append_assoc]
    by_cases h34 : c = 34
    · subst h34
      have h : escapeChar 34 = [92, 34] := rfl
      rw [h]
      simp only [List.cons_append, List.nil_append]
      rw [parseStringBody_esc34, ih]
      rfl
    by_cases h92 : c = 92
    · subst h92
      have h : escapeChar 92 = [92, 92] := rfl
      rw [h]
      simp only [List.cons_append, List.nil_append]
      rw [parseStringBody_esc92, ih]
      rfl
    by_cases h8 : c = 8
    · subst h8
      have h : escapeChar 8 = [92, 98] := rfl
      rw [h]
      simp only [List.cons_append, List.nil_append]
      rw [parseStringBody_esc98, ih]
      rfl
    by_cases h9 : c = 9
    · subst h9
      have h : escapeChar 9 = [92, 116] := rfl
      rw [h]
      simp only [List.cons_append, List.nil_append]
      rw [parseStringBody_esc116, ih]
      rfl
    by_cases h10 : c = 10
    · subst h10
      have h : escapeChar 10 = [92, 110] := rfl
      rw [h]
      simp only [List.cons_append, List.nil_append]
      rw [parseStringBody_esc110, ih]
      rfl
    by_cases h12 : c = 12
    · subst h12
      have h : escapeChar 12 = [92, 102] := rfl
      rw [h]
      simp only [List.cons_append, List.nil_append]
      rw [parseStringBody_esc102, ih]
      rfl
    by_cases h13 : c = 13
    · subst h13
      have h : escapeChar 13 = [92, 114] := rfl
      rw [h]
      simp only [List.cons_append, List.nil_append]
      rw [parseStringBody_esc114, ih]
      rfl
    by_cases hlt : c < 32
    · have hdiv : c / 16 < 16 := by omega
      have hmod : c % 16 < 16 := by omega
      have h : escapeChar c = [92, 117, 48, 48, hexDigitChar (c / 16), hexDigitChar (c % 16)] := by
        simp [escapeChar, h34, h92, h8, h9, h10, h12, h13, hlt]
      rw [h]
      simp only [List.cons_append, List.nil_append]
      rw [parseStringBody_escU]
      have h48 : hexVal 48 = some 0 := rfl
      rw [h48, hexVal_hexDigitChar_all _ hdiv, hexVal_hexDigitChar_all _ hmod, ih]
      simp only [consFst, Option.some.injEq, Prod.mk.injEq, List.cons.injEq, and_true]
      omega
    · have h : escapeChar c = [c] := by
        simp [escapeChar, h34, h92, h8, h9, h10, h12, h13, hlt]
      rw [h]
      simp only [List.cons_append, List.nil_append]
      rw [parseStringBody_plain c _ h34 h92 hlt, ih]
      rfl

theorem quoteStr_append (x A : JSString) :
    quoteStr x ++ A = 34 :: (escapeString x ++ 34 :: A) := by
  simp [quoteStr]

theorem skipWs_cons (c : Nat) (r : JSString) (h : isWsChar c = false) :
    skipWs (c :: r) = c :: r := by
  simp [skipWs, h]

theorem parseValue_str (f : Nat) (x A : JSString) :
    parseValue (f + 1) (34 :: (escapeString x ++ 34 :: A)) = some (JSValue.str x, A) := by
  rw [parseValue.eq_def]
  simp [skipWs, isWsChar, parseStringBody_escape]

theorem parseObjRest_nil (f : Nat) (A : JSString) :
    parseObjRest (f + 1) (125 :: A) = some ([], A) := by
  rw [parseObjRest.eq_def]
  simp [skipWs, isWsChar]

theorem parseObjRest_pair (g : Nat) (key v R : JSString) (ps : List (JSString × JSValue))
    (A : JSString) (h : parseObjRest (g + 1) R = some (ps, A)) :
    parseObjRest (g + 2) (44 :: (34 :: (escapeString key ++ 34 :: (58 :: (34 :: (escapeString v ++ 34 :: R)))))) =
      some ((key, JSValue.str v) :: ps, A) := by
  rw [parseObjRest.eq_def]
  simp [skipWs, isWsChar, parseStringBody_escape, parseValue_str, h]

theorem parseMembers_pair (g : Nat) (key v R : JSString) (ps : List (JSString × JSValue))
    (A : JSString) (h : parseObjRest (g + 1) R = some (ps, A)) :
    parseMembers (g + 2) (34 :: (escapeString key ++ 34 :: (58 :: (34 :: (escapeString v ++ 34 :: R))))) =
      some ((key, JSValue.str v) :: ps, A) := by
  rw [parseMembers.eq_def]
  simp [skipWs, isWsChar, parseStringBody_escape, parseValue_str, h]

theorem parseElems_nil (f : Nat) (A : JSString) :
    parseElems (f + 1) (93 :: A) = some ([], A) := by
  rw [parseElems.eq_def]
  simp [skipWs, isWsChar]

theorem parseElems_strCons (g : Nat) (x R : JSString) (vs : List JSValue) (A : JSString)
    (h : parseArrayRest (g + 1) R = some (vs, A)) :
    parseElems (g + 2) (34 :: (escapeString x ++ 34 :: R)) = some (JSValue.str x :: vs, A) := by
  rw [parseElems.eq_def]
  simp [skipWs, isWsChar, parseValue_str, h]

theorem parseArrayRest_nil (f : Nat) (A : JSString) :
    parseArrayRest (f + 1) (93 :: A) = some ([], A) := by
  rw [parseArrayRest.eq_def]
  simp [skipWs, isWsChar]

theorem parseArrayRest_strCons (g : Nat) (x R : JSString) (vs : List JSValue) (A : JSString)
    (h : parseArrayRest (g + 1) R = some (vs, A)) :
    parseArrayRest (g + 2) (44 :: (34 :: (escapeString x ++ 34 :: R))) =
      some (JSValue.str x :: vs, A) := by
  rw [parseArrayRest.eq_def]
  simp [skipWs, isWsChar, parseValue_str, h]

theorem parseValue_stringifyCreds (f : Nat) (c : ApiCredentials) :
    parseValue (f + 4) (stringifyCreds c) = some (credsValue c, []) := by
  have hOR1 : parseObjRest (f + 1) (125 :: ([] : JSString)) = some ([], []) :=
    parseObjRest_nil f []
  have hOR2 := parseObjRest_pair f dashScopeKeyKey c.dashScopeKey (125 :: []) [] [] hOR1
  have hPM := parseMembers_pair (f + 1) nlsTokenKey c.nlsToken
    (44 :: (34 :: (escapeString dashScopeKeyKey ++ 34 :: (58 :: (34 :: (escapeString c.dashScopeKey ++ 34 :: (125 :: [])))))))
    [(dashScopeKeyKey, JSValue.str c.dashScopeKey)] [] hOR2
  rw [parseValue.eq_def]
  simp only [stringifyCreds, quoteStr_append, List.cons_append, List.append_assoc]
  simp only [skipWs, isWsChar]
  norm_num
  rw [hPM]
  rfl

theorem parseArrayRest_strListTail :
    ∀ (xs : List JSString) (f : Nat) (A : JSString),
      parseArrayRest (f + xs.length + 1) (strListTail xs ++ 93 :: A) =
        some (xs.map JSValue.str, A) := by
  intro xs
  induction xs with
  | nil =>
    intro f A
    simp only [strListTail, List.nil_append, List.length_nil, Nat.add_zero, List.map_nil]
    exact parseArrayRest_nil f A
  | cons x xs ih =>
    intro f A
    have h : strListTail (x :: xs) ++ 93 :: A
        = 44 :: (34 :: (escapeString x ++ 34 :: (strListTail xs ++ 93 :: A))) := by
      simp [strListTail, quoteStr_append]
    rw [h]
    have hlen : f + (x :: xs).length + 1 = (f + xs.length) + 2 := by
      simp [List.length_cons]
      omega
    rw [hlen]
    have := parseArrayRest_strCons (f + xs.length) x (strListTail xs ++ 93 :: A)
      (xs.map JSValue.str) A (ih f A)
    rw [this]
    simp

theorem parseValue_stringifyStrList :
    ∀ (l : List JSString) (f : Nat),
      parseValue (f + l.length + 3) (stringifyStringList l) =
        some (JSValue.arr (l.map JSValue.str), []) := by
  intro l f
  match l with
  | [] =>
    rw [parseValue.eq_def]
    simp only [stringifyStringList, List.length_nil, Nat.add_zero]
    simp only [skipWs, isWsChar]
    norm_num
    rw [show f + 2 = f + 1 + 1 by omega]
    rw [parseElems_nil (f + 1) []]
  | x :: xs =>
    have hAR := parseArrayRest_strListTail xs (f + 1) []
    have hPE := parseElems_strCons (f + 1 + xs.length) x (strListTail xs ++ 93 :: [])
      (xs.map JSValue.str) [] (by rw [show f + 1 + xs.length + 1 = (f + 1) + xs.length + 1 by omega]; exact hAR)
    rw [parseValue.eq_def]
    simp only [stringifyStringList, quoteStr_append, List.cons_append, List.append_assoc,
      List.nil_append]
    simp only [skipWs, isWsChar]
    norm_num
    rw [show f + (xs.length + 1) + 2 = f + 1 + xs.length + 2 by omega]
    rw [hPE]

theorem stringifyCreds_length_pos (c : ApiCredentials) :
    1 ≤ (stringifyCreds c).length := by
  simp [stringifyCreds]

theorem jsonParse_stringifyCreds (c : ApiCredentials) :
    jsonParse (stringifyCreds c) = some (credsValue c) := by
  have h1 := stringifyCreds_length_pos c
  have hfuel : 2 * (stringifyCreds c).length + 2
      = (2 * (stringifyCreds c).length - 2) + 4 := by omega
  rw [jsonParse, hfuel, parseValue_stringifyCreds]
  simp [skipWs]

theorem strListTail_length (xs : List JSString) :
    xs.length ≤ (strListTail xs).length := by
  induction xs with
  | nil => simp [strListTail]
  | cons x xs ih =>
    simp only [strListTail, List.length_cons, List.length_append]
    omega

theorem stringifyStringList_length (l : List JSString) :
    l.length + 1 ≤ (stringifyStringList l).length := by
  match l with
  | [] => simp [stringifyStringList]
  | x :: xs =>
    have h := strListTail_length xs
    simp only [stringifyStringList, List.length_cons, List.length_append, quoteStr,
      List.length_cons]
    omega

theorem jsonParse_stringifyStrList (l : List JSString) :
    jsonParse (stringifyStringList l) = some (JSValue.arr (l.map JSValue.str)) := by
  have h1 := stringifyStringList_length l
  have hfuel : 2 * (stringifyStringList l).length + 2
      = (2 * (stringifyStringList l).length - l.length - 1) + l.length + 3 := by omega
  rw [jsonParse, hfuel, parseValue_stringifyStrList]
  simp [skipWs]

/-! ### Character bounds for the serialized credentials -/

theorem hexDigitChar_lt (n : Nat) (h : n < 16) : hexDigitChar n < 256 := by
  unfold hexDigitChar
  split_ifs <;> omega

theorem escapeChar_mem_lt {c x : Nat} (hc : c < 256) (hx : x ∈ escapeChar c) : x < 256 := by
  unfold escapeChar at hx
  split_ifs at hx with h1 h2 h3 h4 h5 h6 h7 h8
  · simp at hx
    omega
  · simp at hx
    omega
  · simp at hx
    omega
  · simp at hx
    omega
  · simp at hx
    omega
  · simp at hx
    omega
  · simp at hx
    omega
  · have d1 : hexDigitChar (c / 16) < 256 := hexDigitChar_lt _ (by omega)
    have d2 : hexDigitChar (c % 16) < 256 := hexDigitChar_lt _ (by omega)
    simp at hx
    rcases hx with rfl | rfl | rfl | rfl | rfl | rfl <;> omega
  · simp at hx
    omega

theorem escapeString_all_lt :
    ∀ s : JSString, (∀ c ∈ s, c < 256) → ∀ x ∈ escapeString s, x < 256 := by
  intro s
  induction s using escapeString.induct with
  | case1 =>
    intro _ x hx
    rw [escapeString.eq_def] at hx
    simp at hx
  | case2 c hhigh c2 rest2 hlow ih =>
    intro h
    have hc := h c (by simp)
    have hb : 55296 ≤ c ∧ c ≤ 56319 := by
      simpa [isHighSurrogate] using hhigh
    exact absurd hc (by omega)
  | case3 c hhigh c2 rest2 hlow ih =>
    intro h
    have hc := h c (by simp)
    have hb : 55296 ≤ c ∧ c ≤ 56319 := by
      simpa [isHighSurrogate] using hhigh
    exact absurd hc (by omega)
  | case4 c hhigh =>
    intro h
    have hc := h c (by simp)
    have hb : 55296 ≤ c ∧ c ≤ 56319 := by
      simpa [isHighSurrogate] using hhigh
    exact absurd hc (by omega)
  | case5 c s hhigh hlow ih =>
    intro h
    have hc := h c (by simp)
    have hb : 56320 ≤ c ∧ c ≤ 57343 := by
      simpa [isLowSurrogate] using hlow
    exact absurd hc (by omega)
  | case6 c s hhigh hlow ih =>
    intro h x hx
    rw [Bool.not_eq_true] at hhigh hlow
    rw [escapeString_other c s hhigh hlow] at hx
    rcases List.mem_append.mp hx with h1 | h1
    · exact escapeChar_mem_lt (h c (by simp)) h1
    · exact ih (fun y hy => h y (by simp [hy])) x h1

theorem stringifyCreds_all_lt (c : ApiCredentials)
    (h1 : ∀ x ∈ c.nlsToken, x < 256) (h2 : ∀ x ∈ c.dashScopeKey, x < 256) :
    ∀ x ∈ stringifyCreds c, x < 256 := by
  have e1 : escapeString nlsTokenKey = nlsTokenKey := rfl
  have e2 : escapeString dashScopeKeyKey = dashScopeKeyKey := rfl
  simp only [stringifyCreds, quoteStr, e1, e2, List.cons_append, List.append_assoc]
  simp only [List.forall_mem_cons, List.forall_mem_append]
  repeat' apply And.intro
  all_goals first
    | decide
    | exact escapeString_all_lt _ h1
    | exact escapeString_all_lt _ h2

theorem mem_escapeString_of_ge :
    ∀ (s : JSString) (c : Nat), c ∈ s → 256 ≤ c →
      isHighSurrogate c = false → isLowSurrogate c = false → c ∈ escapeString s := by
  intro s
  induction s using escapeString.induct with
  | case1 =>
    intro c hc _ _ _
    simp at hc
  | case2 c0 hhigh c2 rest2 hlow ih =>
    intro c hc hge hh hl
    rw [escapeString_pair c0 c2 rest2 hhigh hlow]
    rcases List.mem_cons.mp hc with rfl | hc2
    · simp
    rcases List.mem_cons.mp hc2 with rfl | hc3
    · simp
    · simp only [List.mem_cons]
      exact Or.inr (Or.inr (ih c hc3 hge hh hl))
  | case3 c0 hhigh c2 rest2 hlow ih =>
    intro c hc hge hh hl
    rw [Bool.not_eq_true] at hlow
    rw [escapeString_highLone c0 c2 rest2 hhigh hlow]
    rcases List.mem_cons.mp hc with rfl | hc2
    · rw [hhigh] at hh
      exact absurd hh (by simp)
    · exact List.mem_append.mpr (Or.inr (ih c hc2 hge hh hl))
  | case4 c0 hhigh =>
    intro c hc hge hh hl
    rw [List.mem_singleton.mp hc] at hh
    rw [hhigh] at hh
    exact absurd hh (by simp)
  | case5 c0 s hhigh hlow ih =>
    intro c hc hge hh hl
    rw [Bool.not_eq_true] at hhigh
    rw [escapeString_low c0 s hhigh hlow]
    rcases List.mem_cons.mp hc with rfl | hc2
    · rw [hlow] at hl
      exact absurd hl (by simp)
    · exact List.mem_append.mpr (Or.inr (ih c hc2 hge hh hl))
  | case6 c0 s hhigh hlow ih =>
    intro c hc hge hh hl
    rw [Bool.not_eq_true] at hhigh hlow
    rw [escapeString_other c0 s hhigh hlow]
    rcases List.mem_cons.mp hc with rfl | hc2
    · have h34 : ¬(c = 34) := by omega
      have h92 : ¬(c = 92) := by omega
      have h8 : ¬(c = 8) := by omega
      have h9 : ¬(c = 9) := by omega
      have h10 : ¬(c = 10) := by omega
      have h12 : ¬(c = 12) := by omega
      have h13 : ¬(c = 13) := by omega
      have hlt : ¬(c < 32) := by omega
      have hch : escapeChar c = [c] := by
        simp [escapeChar, h34, h92, h8, h9, h10, h12, h13, hlt]
      rw [hch]
      simp
    · exact List.mem_append.mpr (Or.inr (ih c hc2 hge hh hl))

theorem mem_stringifyCreds_of_mem_nls {c : ApiCredentials} {x : Nat}
    (hx : x ∈ escapeString c.nlsToken) : x ∈ stringifyCreds c := by
  simp only [stringifyCreds, quoteStr, List.cons_append, List.append_assoc,
    List.mem_cons, List.mem_append]
  tauto

theorem mem_stringifyCreds_of_mem_dash {c : ApiCredentials} {x : Nat}
    (hx : x ∈ escapeString c.dashScopeKey) : x ∈ stringifyCreds c := by
  simp only [stringifyCreds, quoteStr, List.cons_append, List.append_assoc,
    List.mem_cons, List.mem_append]
  tauto

theorem saveCredentials_ok (c : ApiCredentials) (st : LocalStorage)
    (h1 : ∀ x ∈ c.nlsToken, x < 256) (h2 : ∀ x ∈ c.dashScopeKey, x < 256) :
    saveCredentials c st
      = .ok { st with credentials := some (base64EncodeBytes (stringifyCreds c)) } := by
  have hall : (stringifyCreds c).all (fun x => x < 256) = true := by
    rw [List.all_eq_true]
    intro x hx
    simpa using stringifyCreds_all_lt c h1 h2 x hx
  simp [saveCredentials, btoa, hall]

theorem getCredentials_after_save (c : ApiCredentials) (st : LocalStorage)
    (h1 : ∀ x ∈ c.nlsToken, x < 256) (h2 : ∀ x ∈ c.dashScopeKey, x < 256) :
    getCredentials { st with credentials := some (base64EncodeBytes (stringifyCreds c)) }
      = some (credsValue c) := by
  have hatob : atob (base64EncodeBytes (stringifyCreds c)) = .ok (stringifyCreds c) := by
    simp [atob, base64_roundtrip _ (stringifyCreds_all_lt c h1 h2)]
  simp [getCredentials, hatob, jsonParse_stringifyCreds]

/-- C1 (counterexample): a whitespace-only credential pair (a single space in
each field) is not rejected by `StorageManager.saveCredentials` — the save
succeeds and replaces the previously stored pair; moreover the round trip
fails altogether for a pair containing the non-Latin-1, non-surrogate
character U+4E2D (which `JSON.stringify` passes through literally), where
`saveCredentials` throws. -/
theorem saveCredentials_whitespace_accepted_cx :
    saveCredentials ⟨[32], [32]⟩ storeWithAB
        = .ok { storeWithAB with
                credentials := some (base64EncodeBytes (stringifyCreds ⟨[32], [32]⟩)) } ∧
    some (base64EncodeBytes (stringifyCreds ⟨[32], [32]⟩)) ≠ storeWithAB.credentials ∧
    getCredentials { storeWithAB with
                credentials := some (base64EncodeBytes (stringifyCreds ⟨[32], [32]⟩)) }
        = some (credsValue ⟨[32], [32]⟩) ∧
    saveCredentials ⟨[20013], [98]⟩ storeWithAB = .error failedSaveCredentialsMsg := by
  refine ⟨by rfl, by decide, by rfl, by rfl⟩

/-- C1 (amended): for a credential pair whose code units are all Latin-1
(below 256) — including empty or whitespace-only fields — `saveCredentials`
succeeds and `getCredentials` returns a byte-identical pair; a pair with a
non-surrogate code unit of 256 or more (one that well-formed
`JSON.stringify` passes through literally, such as U+4E2D) makes
`saveCredentials` throw the defined `Failed to save API credentials` error,
leaving the store unchanged.  (A lone surrogate, by contrast, is escaped to
ASCII by ES2019 `JSON.stringify` and does not by itself make the save
fail.) -/
theorem saveCredentials_getCredentials_roundtrip :
    ∀ (c : ApiCredentials) (st : LocalStorage),
      ((∀ x ∈ c.nlsToken, x < 256) → (∀ x ∈ c.dashScopeKey, x < 256) →
        ∃ st', saveCredentials c st = .ok st' ∧ getCredentials st' = some (credsValue c)) ∧
      (((∃ x ∈ c.nlsToken, 256 ≤ x ∧ isHighSurrogate x = false ∧ isLowSurrogate x = false) ∨
        (∃ x ∈ c.dashScopeKey, 256 ≤ x ∧ isHighSurrogate x = false ∧ isLowSurrogate x = false)) →
        saveCredentials c st = .error failedSaveCredentialsMsg) := by
  intro c st
  constructor
  · intro h1 h2
    exact ⟨_, saveCredentials_ok c st h1 h2, getCredentials_after_save c st h1 h2⟩
  · intro h
    have hbad : ∃ x ∈ stringifyCreds c, 256 ≤ x := by
      rcases h with ⟨x, hx, hge, hh, hl⟩ | ⟨x, hx, hge, hh, hl⟩
      · exact ⟨x, mem_stringifyCreds_of_mem_nls (mem_escapeString_of_ge _ x hx hge hh hl), hge⟩
      · exact ⟨x, mem_stringifyCreds_of_mem_dash (mem_escapeString_of_ge _ x hx hge hh hl), hge⟩
    obtain ⟨x, hx, hge⟩ := hbad
    have hall : (stringifyCreds c).all (fun y => y < 256) = false := by
      rw [List.all_eq_false]
      exact ⟨x, hx, by simpa using hge⟩
    simp [saveCredentials, btoa, hall]

/-- Witness for the amended C1 theorem at the concrete pair `("a", "b")`. -/
theorem saveCredentials_getCredentials_roundtrip_witness :
    ∃ st', saveCredentials ⟨[97], [98]⟩ emptyStorage = .ok st' ∧
      getCredentials st' = some (credsValue ⟨[97], [98]⟩) :=
  (saveCredentials_getCredentials_roundtrip ⟨[97], [98]⟩ emptyStorage).1
    (by decide) (by decide)

/-- C10: the `StorageManager` read operations never throw: with an absent
key, or stored data on which the decode pipeline fails (`atob` throwing, or
`JSON.parse` throwing), `getCredentials` and `getSettings` return `null`
and `getSessions` returns the empty array.  (All three are total functions
of the store in this model; the `catch` branches are the `none`/empty
results below.) -/
theorem storage_reads_never_throw :
    ∀ st : LocalStorage,
      (st.credentials = none → getCredentials st = none) ∧
      (∀ e, st.credentials = some e →
        (atob e = .error invalidCharacterErr ∨
         ∃ d, atob e = .ok d ∧ jsonParse d = none) →
        getCredentials st = none) ∧
      (st.settings = none → getSettings st = none) ∧
      (∀ s, st.settings = some s → jsonParse s = none → getSettings st = none) ∧
      (st.sessions = none → getSessions st = .arr []) ∧
      (∀ s, st.sessions = some s → jsonParse s = none → getSessions st = .arr []) := by
  intro st
  refine ⟨?_, ?_, ?_, ?_, ?_, ?_⟩
  · intro h
    simp [getCredentials, h]
  · intro e he hfail
    rcases hfail with hfail | ⟨d, hok, hparse⟩
    · simp [getCredentials, he, hfail]
    · simp [getCredentials, he, hok, hparse]
  · intro h
    simp [getSettings, h]
  · intro s hs hparse
    simp [getSettings, hs, hparse]
  · intro h
    simp [getSessions, h]
  · intro s hs hparse
    simp [getSessions, hs, hparse]

/-- Witness for C10 at a concrete store holding undecodable data (`"?"` is
neither valid base64 nor valid JSON). -/
theorem storage_reads_never_throw_witness :
    getCredentials ⟨some [63], some [63], some [63], none⟩ = none ∧
    getSettings ⟨some [63], some [63], some [63], none⟩ = none ∧
    getSessions ⟨some [63], some [63], some [63], none⟩ = .arr [] := by
  have h := storage_reads_never_throw ⟨some [63], some [63], some [63], none⟩
  refine ⟨h.2.1 [63] rfl (Or.inl (by rfl)), h.2.2.2.1 [63] rfl (by rfl),
    h.2.2.2.2.2 [63] rfl (by rfl)⟩

theorem getSessions_of_good {st : LocalStorage} {l : List JSString}
    (h : SessionsGood st l) : getSessions st = .arr (l.map JSValue.str) := by
  rcases h.1 with ⟨h1, rfl⟩ | h1
  · simp [getSessions, h1]
  · simp [getSessions, h1, jsonParse_stringifyStrList]

theorem any_jsStrEq (l : List JSString) (sessionId : JSString) :
    (l.map JSValue.str).any (fun v => jsStrEq v sessionId) = decide (sessionId ∈ l) := by
  induction l with
  | nil => simp
  | cons t xs ih =>
    have hhead : jsStrEq (JSValue.str t) sessionId = decide (t = sessionId) := rfl
    simp only [List.map_cons, List.any_cons, ih, hhead, List.mem_cons]
    by_cases h : t = sessionId
    · subst h
      simp
    · have h2 : ¬ sessionId = t := fun hh => h hh.symm
      simp [h, h2]

theorem asStringList_map (l : List JSString) :
    asStringList (l.map JSValue.str) = some l := by
  induction l with
  | nil => simp [asStringList]
  | cons t xs ih => simp [asStringList, ih]

theorem sessionsStep_nodup {l : List JSString} (sessionId : JSString)
    (h : l.Nodup) : (sessionsStep l sessionId).Nodup := by
  unfold sessionsStep
  split_ifs with h1 h2
  · exact h
  · exact ((List.nodup_cons.mpr ⟨h1, h⟩).sublist (List.take_sublist _ _))
  · exact List.nodup_cons.mpr ⟨h1, h⟩

theorem sessionsStep_length {l : List JSString} (sessionId : JSString)
    (h : l.length ≤ 50) : (sessionsStep l sessionId).length ≤ 50 := by
  unfold sessionsStep
  split_ifs with h1 h2
  · exact h
  · simp [List.length_take]
  · simp only [List.length_cons] at h2 ⊢
    omega

theorem addSession_good {st : LocalStorage} {l : List JSString} (sessionId : JSString)
    (h : SessionsGood st l) :
    addSession sessionId st
        = .ok (if sessionId ∈ l then st else saveSessions (sessionsStep l sessionId) st) ∧
      SessionsGood (if sessionId ∈ l then st else saveSessions (sessionsStep l sessionId) st)
        (sessionsStep l sessionId) := by
  have hget := getSessions_of_good h
  by_cases hmem : sessionId ∈ l
  · have hstep : sessionsStep l sessionId = l := by simp [sessionsStep, hmem]
    refine ⟨?_, ?_⟩
    · simp [addSession, hget, any_jsStrEq, hmem]
    · simp only [hmem, if_pos, hstep]
      exact h
  · have hany : (l.map JSValue.str).any (fun v => jsStrEq v sessionId) = false := by
      simp [any_jsStrEq, hmem]
    refine ⟨?_, ?_⟩
    · simp [addSession, hget, hany, asStringList_map, sessionsStep, hmem, saveSessions]
    · simp only [hmem, if_neg, if_false]
      refine ⟨Or.inr ?_, sessionsStep_nodup _ h.2.1, sessionsStep_length _ h.2.2⟩
      simp [saveSessions]

theorem addSessionsRun_good :
    ∀ (ids : List JSString) (st : LocalStorage) (l : List JSString),
      SessionsGood st l →
      ∃ st', addSessionsRun ids st = .ok st' ∧ SessionsGood st' (ids.foldl sessionsStep l) := by
  intro ids
  induction ids with
  | nil =>
    intro st l h
    exact ⟨st, rfl, by simpa using h⟩
  | cons sessionId rest ih =>
    intro st l h
    obtain ⟨hrun, hgood⟩ := addSession_good sessionId h
    obtain ⟨st', hrun', hgood'⟩ := ih _ _ hgood
    refine ⟨st', ?_, by simpa using hgood'⟩
    simp only [addSessionsRun, hrun]
    exact hrun'

/-- C9: starting from a cleared store, any history of `addSession` calls
succeeds and leaves a stored id list with no duplicates and at most 50
entries; adding a fresh id puts it at the front and keeps only the first 50
entries of the extended list (the oldest beyond 50 are dropped). -/
theorem addSession_history_invariant :
    ∀ ids : List JSString,
      (∃ st', addSessionsRun ids emptyStorage = .ok st' ∧
        getSessions st' = .arr ((sessionsAfter ids).map JSValue.str)) ∧
      (sessionsAfter ids).Nodup ∧ (sessionsAfter ids).length ≤ 50 ∧
      (∀ sessionId, sessionId ∉ sessionsAfter ids →
        sessionsAfter (ids ++ [sessionId]) = (sessionId :: sessionsAfter ids).take 50 ∧
        (sessionsAfter (ids ++ [sessionId])).head? = some sessionId) := by
  intro ids
  have hinit : SessionsGood emptyStorage [] := by
    refine ⟨Or.inl ⟨rfl, rfl⟩, by simp, by simp⟩
  obtain ⟨st', hrun, hgood⟩ := addSessionsRun_good ids emptyStorage [] hinit
  have hfold : sessionsAfter ids = ids.foldl sessionsStep [] := rfl
  refine ⟨⟨st', hrun, ?_⟩, ?_, ?_, ?_⟩
  · rw [hfold]
    exact getSessions_of_good hgood
  · rw [hfold]
    exact hgood.2.1
  · rw [hfold]
    exact hgood.2.2
  · intro sessionId hmem
    have hstep : sessionsAfter (ids ++ [sessionId])
        = sessionsStep (sessionsAfter ids) sessionId := by
      simp [sessionsAfter, List.foldl_append]
    have hlen : (sessionsAfter ids).length ≤ 50 := by
      rw [hfold]
      exact hgood.2.2
    have htake : sessionsStep (sessionsAfter ids) sessionId
        = (sessionId :: sessionsAfter ids).take 50 := by
      unfold sessionsStep
      rw [if_neg hmem]
      split_ifs with h1
      · rfl
      · have h2 : (sessionId :: sessionsAfter ids).length ≤ 50 := by
          simp only [List.length_cons] at h1 ⊢
          omega
        exact (List.take_of_length_le h2).symm
    refine ⟨hstep.trans htake, ?_⟩
    rw [hstep, htake]
    rfl

/-- Witness for C9 at the concrete history `["a", "b", "a"]` followed by a
fresh id `"c"`. -/
theorem addSession_history_invariant_witness :
    (sessionsAfter [[97], [98], [97]]).Nodup ∧
    sessionsAfter ([[97], [98], [97]] ++ [[99]])
        = ([99] :: sessionsAfter [[97], [98], [97]]).take 50 ∧
    (sessionsAfter ([[97], [98], [97]] ++ [[99]])).head? = some [99] := by
  obtain ⟨_, h2, _, h4⟩ := addSession_history_invariant [[97], [98], [97]]
  have h5 := h4 [99] (by decide)
  exact ⟨h2, h5.1, h5.2⟩

/-- C3: `encode` always produces exactly two bytes per input sample, and the
boundary samples 1.0, -1.0 and 0 map to the 16-bit codes 32767, -32768 and
0 respectively. -/
theorem encode_length_and_boundaries :
    ∀ audioData : List ℚ,
      (encode audioData).length = 2 * audioData.length ∧
      encodeSample 1 = 32767 ∧ encodeSample (-1) = -32768 ∧ encodeSample 0 = 0 := by
  intro audioData
  have hone : encodeSample 1 = 32767 := by
    have h1 : clampSample 1 = 1 := by norm_num [clampSample, jsMin, jsMax]
    have h2 : scaleSample 1 = 32767 := by norm_num [scaleSample]
    have h3 : jsTrunc 32767 = 32767 := by norm_num [jsTrunc]
    have h4 : toInt16 32767 = 32767 := by decide
    rw [encodeSample, h1, h2, h3, h4]
  have hneg : encodeSample (-1) = -32768 := by
    have h1 : clampSample (-1) = -1 := by norm_num [clampSample, jsMin, jsMax]
    have h2 : scaleSample (-1) = -32768 := by norm_num [scaleSample]
    have h3 : jsTrunc (-32768) = -32768 := by norm_num [jsTrunc]
    have h4 : toInt16 (-32768) = -32768 := by decide
    rw [encodeSample, h1, h2, h3, h4]
  have hzero : encodeSample 0 = 0 := by
    have h1 : clampSample 0 = 0 := by norm_num [clampSample, jsMin, jsMax]
    have h2 : scaleSample 0 = 0 := by norm_num [scaleSample]
    have h3 : jsTrunc 0 = 0 := by norm_num [jsTrunc]
    have h4 : toInt16 0 = 0 := by decide
    rw [encodeSample, h1, h2, h3, h4]
  refine ⟨?_, hone, hneg, hzero⟩
  induction audioData with
  | nil => simp [encode]
  | cons x l ih =>
    have h : encode (x :: l) = int16Bytes (encodeSample x) ++ encode l := by
      simp [encode]
    rw [h]
    simp only [List.length_append, List.length_cons, ih, int16Bytes, List.length_cons,
      List.length_nil]
    omega

/-- C2 (counterexample): `calculateRMS` of the empty sequence is NaN
(modelled `none`), not 0: the code divides by `audioData.length = 0`. -/
theorem calculateRMS_empty_nan_cx :
    calculateRMS [] = none ∧ calculateRMS ([] : List ℝ) ≠ some 0 := by
  constructor <;> simp [calculateRMS]

/-- C2 (amended): `calculateRMS` is a pure function of its input; for a
nonempty input with all values in [-1, 1] the result is a real in [0, 1];
a nonempty all-zero input gives exactly 0; and the empty input gives NaN
(`none`), not 0. -/
theorem calculateRMS_bounds :
    ∀ l : List ℝ,
      (∀ m : List ℝ, l = m → calculateRMS l = calculateRMS m) ∧
      (l ≠ [] → (∀ x ∈ l, -1 ≤ x ∧ x ≤ 1) →
        ∃ r, calculateRMS l = some r ∧ 0 ≤ r ∧ r ≤ 1) ∧
      (l ≠ [] → (∀ x ∈ l, x = 0) → calculateRMS l = some 0) ∧
      (l = [] → calculateRMS l = none) := by
  intro l
  refine ⟨fun m hm => by rw [hm], ?_, ?_, ?_⟩
  · intro hne hub
    have hlen : l.length ≠ 0 := by simpa using hne
    have hlenpos : (0 : ℝ) < l.length := by
      have : 0 < l.length := Nat.pos_of_ne_zero hlen
      exact_mod_cast this
    have hsq_le : ∀ y ∈ l.map (fun x => x * x), y ≤ 1 := by
      intro y hy
      obtain ⟨x, hx, rfl⟩ := List.mem_map.mp hy
      obtain ⟨h1, h2⟩ := hub x hx
      nlinarith
    have hsq_nonneg : ∀ y ∈ l.map (fun x => x * x), 0 ≤ y := by
      intro y hy
      obtain ⟨x, hx, rfl⟩ := List.mem_map.mp hy
      exact mul_self_nonneg x
    have hsum_le : (l.map (fun x => x * x)).sum ≤ l.length := by
      have := List.sum_le_card_nsmul (l.map (fun x => x * x)) 1 hsq_le
      simpa [nsmul_eq_mul] using this
    have hsum_nonneg : (0 : ℝ) ≤ (l.map (fun x => x * x)).sum :=
      List.sum_nonneg hsq_nonneg
    refine ⟨Real.sqrt ((l.map (fun x => x * x)).sum / l.length), ?_, Real.sqrt_nonneg _, ?_⟩
    · simp [calculateRMS, hlen]
    · apply Real.sqrt_le_one.mpr
      rw [div_le_one hlenpos]
      exact hsum_le
  · intro hne hzero
    have hlen : l.length ≠ 0 := by simpa using hne
    have hsum : (l.map (fun x => x * x)).sum = 0 := by
      apply List.sum_eq_zero
      intro y hy
      obtain ⟨x, hx, rfl⟩ := List.mem_map.mp hy
      rw [hzero x hx]
      ring
    simp [calculateRMS, hlen, hsum]
  · intro h
    simp [calculateRMS, h]

/-- Witness for the amended C2 theorem: the one-element zero sequence. -/
theorem calculateRMS_bounds_witness : calculateRMS [(0 : ℝ)] = some 0 :=
  (calculateRMS_bounds [(0 : ℝ)]).2.2.1 (by simp) (by simp)

/-- C4: the computed reconnect delay is `min(base * 2^attempt, 30000)`,
never exceeds the 30000 ms cap, and (for a positive effective base delay,
as with the default 1000 ms) is strictly increasing in the attempt index
as long as the cap has not been reached. -/
theorem backoff_formula_monotone :
    ∀ (configReconnectDelay : Option ℚ) (attempt : ℕ),
      calculateBackoffDelay configReconnectDelay attempt
          = min (jsOrDefault configReconnectDelay 1000 * 2 ^ attempt) 30000 ∧
      calculateBackoffDelay configReconnectDelay attempt ≤ 30000 ∧
      (0 < jsOrDefault configReconnectDelay 1000 →
        calculateBackoffDelay configReconnectDelay attempt < 30000 →
        calculateBackoffDelay configReconnectDelay attempt
          < calculateBackoffDelay configReconnectDelay (attempt + 1)) := by
  intro cfg attempt
  have hun : ∀ a : ℕ, calculateBackoffDelay cfg a
      = min (jsOrDefault cfg 1000 * 2 ^ a) 30000 := by
    intro a
    simp [calculateBackoffDelay, jsMin, min_def, WEBSOCKET_RECONNECT_DELAY,
      WEBSOCKET_MAX_RECONNECT_DELAY, WEBSOCKET_BACKOFF_MULTIPLIER]
  refine ⟨hun attempt, (hun attempt) ▸ min_le_right _ _, ?_⟩
  intro hb hcap
  rw [hun attempt] at hcap ⊢
  rw [hun (attempt + 1)]
  have hdelay : jsOrDefault cfg 1000 * 2 ^ attempt < 30000 := by
    by_contra hge
    push_neg at hge
    rw [min_eq_right hge] at hcap
    exact lt_irrefl _ hcap
  rw [min_eq_left (le_of_lt hdelay)]
  have hpos : 0 < jsOrDefault cfg 1000 * 2 ^ attempt :=
    mul_pos hb (pow_pos (by norm_num) attempt)
  have hnext : jsOrDefault cfg 1000 * 2 ^ attempt
      < jsOrDefault cfg 1000 * 2 ^ (attempt + 1) := by
    have h2 : jsOrDefault cfg 1000 * 2 ^ (attempt + 1)
        = 2 * (jsOrDefault cfg 1000 * 2 ^ attempt) := by ring
    rw [h2]
    linarith
  exact lt_min hnext hdelay

/-- Witness for C4: with the default configuration the delay at attempt 2
(4000 ms) is strictly below the delay at attempt 3 (8000 ms). -/
theorem backoff_formula_monotone_witness :
    calculateBackoffDelay none 2 < calculateBackoffDelay none 3 :=
  (backoff_formula_monotone none 2).2.2
    (by norm_num [jsOrDefault])
    (by norm_num [calculateBackoffDelay, jsOrDefault, jsMin, WEBSOCKET_RECONNECT_DELAY,
      WEBSOCKET_MAX_RECONNECT_DELAY, WEBSOCKET_BACKOFF_MULTIPLIER])

theorem channelInv_initial : ChannelInv initialChannel := by
  simp [ChannelInv, initialChannel]

theorem handleConnect_inv {s : ChannelState} (ctorOk : Bool) (h : ChannelInv s) :
    ChannelInv (handleConnect ctorOk s) := by
  unfold handleConnect
  split_ifs with h1 h2 <;> simp_all [ChannelInv]

theorem channelInv_step {s : ChannelState} (maxAttempts : Nat) (e : ChannelEvent)
    (h : ChannelInv s) : ChannelInv (channelStep maxAttempts e s) := by
  cases e with
  | connect ctorOk => exact handleConnect_inv ctorOk h
  | openEvt =>
    unfold channelStep handleOpen
    split_ifs with h1 <;> simp_all [ChannelInv]
  | closeEvt =>
    unfold channelStep handleClose
    rcases hws : s.ws with _ | rs
    · simpa [hws] using h
    · split_ifs with h1 h2 <;> simp_all [ChannelInv]
  | errorEvt =>
    unfold channelStep handleError
    split_ifs with h1 <;> simp_all [ChannelInv]
  | timer ctorOk =>
    unfold channelStep timerFire
    split_ifs with h1
    · apply handleConnect_inv
      simpa [ChannelInv] using h
    · exact h
  | disconnectEvt =>
    unfold channelStep handleDisconnect
    rcases hws : s.ws with _ | rs <;> simp_all [ChannelInv]
  | send pcmData sendOk =>
    unfold channelStep sendAudio
    by_cases h1 : s.ws = some .OPEN
    · cases sendOk <;> simp_all [ChannelInv]
    · simp_all [ChannelInv]

theorem channelInv_run (maxAttempts : Nat) (es : List ChannelEvent) (s : ChannelState)
    (h : ChannelInv s) : ChannelInv (channelRun maxAttempts es s) := by
  induction es generalizing s with
  | nil => simpa [channelRun] using h
  | cons e rest ih =>
    have hstep := channelInv_step maxAttempts e h
    simpa [channelRun, List.foldl_cons] using ih _ hstep

/-- C5 (counterexample): two `connect()` calls while the first transport is
still connecting create two simultaneous connection attempts — the code
only guards against an `OPEN` transport and never closes a superseded
connecting one, so the at-most-one-active-attempt invariant fails. -/
theorem connect_twice_two_attempts_cx :
    activeConnectingCount (handleConnect true (handleConnect true initialChannel)) = 2 ∧
    (handleConnect true (handleConnect true initialChannel)).socketsCreated = 2 ∧
    activeConnectingCount (handleConnect true initialChannel) = 1 := by
  refine ⟨by decide, by decide, by decide⟩

/-- C5 (amended): on an invariant-respecting (reachable) state, `connect()`
is a no-op exactly while the state is `connected` (the code guard is the
transport being `OPEN`); otherwise it sets the state to `connecting`,
clears any prior error and opens a new transport — but it does not close a
prior still-connecting transport, so overlapping connection attempts are
possible (see the counterexample). -/
theorem connect_noop_or_new_transport :
    ∀ (s : ChannelState) (ctorOk : Bool),
      ChannelInv s →
      (s.connectionState = .connected → handleConnect ctorOk s = s) ∧
      (s.ws ≠ some .OPEN →
        (handleConnect true s).connectionState = .connecting ∧
        (handleConnect true s).lastError = none ∧
        (handleConnect true s).ws = some .CONNECTING ∧
        (handleConnect true s).socketsCreated = s.socketsCreated + 1) := by
  intro s ctorOk hinv
  constructor
  · intro hconn
    have hws : s.ws = some .OPEN := hinv.mp hconn
    simp [handleConnect, hws]
  · intro hws
    simp [handleConnect, hws]

/-- Witness for the amended C5 theorem: `connect()` on a freshly connected
channel is a no-op, and `connect()` on the initial state opens a transport
and moves to `connecting`. -/
theorem connect_noop_or_new_transport_witness :
    handleConnect true (handleOpen (handleConnect true initialChannel))
        = handleOpen (handleConnect true initialChannel) ∧
    (handleConnect true initialChannel).connectionState = .connecting := by
  refine ⟨(connect_noop_or_new_transport (handleOpen (handleConnect true initialChannel))
      true (by unfold ChannelInv; decide)).1 (by decide),
    ((connect_noop_or_new_transport initialChannel true
      (by unfold ChannelInv; decide)).2 (by decide)).1⟩

/-- C6: on an invariant-respecting (reachable) state, `sendAudio` in any
state other than `connected` leaves the channel state completely unchanged
— no frame is transmitted, no exception propagates (the handler returns
after a warning), and the connection state is untouched; while `connected`
(with the transport send succeeding) the buffer is transmitted. -/
theorem sendAudio_gating :
    ∀ (s : ChannelState) (pcmData : List Nat) (sendOk : Bool),
      ChannelInv s →
      (s.connectionState ≠ .connected → sendAudio pcmData sendOk s = s) ∧
      (s.connectionState = .connected →
        sendAudio pcmData true s = { s with transmitted := pcmData :: s.transmitted }) := by
  intro s pcmData sendOk hinv
  constructor
  · intro hne
    have hws : s.ws ≠ some .OPEN := fun hw => hne (hinv.mpr hw)
    simp [sendAudio, hws]
  · intro hconn
    have hws : s.ws = some .OPEN := hinv.mp hconn
    simp [sendAudio, hws]

/-- Witness for C6: sending on the initial (disconnected) channel changes
nothing; sending on a connected channel records the transmitted buffer. -/
theorem sendAudio_gating_witness :
    sendAudio [1, 2] true initialChannel = initialChannel ∧
    sendAudio [1, 2] true (handleOpen (handleConnect true initialChannel))
        = { handleOpen (handleConnect true initialChannel) with transmitted := [[1, 2]] } := by
  refine ⟨(sendAudio_gating initialChannel [1, 2] true (by unfold ChannelInv; decide)).1
      (by decide),
    (sendAudio_gating (handleOpen (handleConnect true initialChannel)) [1, 2] true
      (by unfold ChannelInv; decide)).2 (by decide)⟩

theorem post_disconnect_quiet (maxAttempts : Nat) (e : ChannelEvent) (t : ChannelState)
    (he : isConnectEvent e = false)
    (h : t.reconnectTimer = false ∧ t.ws = none) :
    (channelStep maxAttempts e t).reconnectTimer = false ∧
    (channelStep maxAttempts e t).ws = none ∧
    (channelStep maxAttempts e t).socketsCreated = t.socketsCreated := by
  obtain ⟨ht, hw⟩ := h
  cases e with
  | connect ctorOk => simp [isConnectEvent] at he
  | openEvt => simp [channelStep, handleOpen, hw, ht]
  | closeEvt => simp [channelStep, handleClose, hw, ht]
  | errorEvt => simp [channelStep, handleError, hw, ht]
  | timer ctorOk => simp [channelStep, timerFire, ht, hw]
  | disconnectEvt => simp [channelStep, handleDisconnect, hw, ht]
  | send pcmData sendOk => simp [channelStep, sendAudio, hw, ht]

/-- C8: a manual `disconnect()` from any state cancels any pending
reconnect timer, closes the transport (when one exists) with the
normal-closure code 1000, sets the state to `disconnected` and resets the
attempt counter to 0; and no later event other than a renewed `connect()`
call ever creates a transport or re-arms the reconnect timer. -/
theorem disconnect_terminal :
    ∀ (s : ChannelState) (maxAttempts : Nat) (es : List ChannelEvent),
      (∀ e ∈ es, isConnectEvent e = false) →
      (handleDisconnect s).connectionState = .disconnected ∧
      (handleDisconnect s).reconnectTimer = false ∧
      (handleDisconnect s).reconnectAttempts = 0 ∧
      (s.ws ≠ none → (handleDisconnect s).lastCloseCode = some 1000) ∧
      (channelRun maxAttempts es (handleDisconnect s)).socketsCreated
          = (handleDisconnect s).socketsCreated ∧
      (channelRun maxAttempts es (handleDisconnect s)).reconnectTimer = false := by
  intro s maxAttempts es hes
  have hbase : ∀ (fs : List ChannelEvent), (∀ e ∈ fs, isConnectEvent e = false) →
      ∀ t : ChannelState, t.reconnectTimer = false ∧ t.ws = none →
      (channelRun maxAttempts fs t).reconnectTimer = false ∧
      (channelRun maxAttempts fs t).ws = none ∧
      (channelRun maxAttempts fs t).socketsCreated = t.socketsCreated := by
    intro fs
    induction fs with
    | nil =>
      intro _ t ht
      exact ⟨ht.1, ht.2, rfl⟩
    | cons e rest ih =>
      intro hall t ht
      have hstep := post_disconnect_quiet maxAttempts e t (hall e (by simp)) ht
      have hrec := ih (fun x hx => hall x (by simp [hx])) _ ⟨hstep.1, hstep.2.1⟩
      exact ⟨hrec.1, hrec.2.1, hrec.2.2.trans hstep.2.2⟩
  have hdq : (handleDisconnect s).reconnectTimer = false ∧ (handleDisconnect s).ws = none := by
    unfold handleDisconnect
    rcases s.ws with _ | rs <;> simp
  have hrun := hbase es hes (handleDisconnect s) hdq
  refine ⟨?_, hdq.1, ?_, ?_, hrun.2.2, hrun.1⟩
  · unfold handleDisconnect
    rcases s.ws with _ | rs <;> simp
  · unfold handleDisconnect
    rcases s.ws with _ | rs <;> simp
  · intro hws
    unfold handleDisconnect
    rcases h : s.ws with _ | rs
    · exact absurd h hws
    · simp [h]

/-- Witness for C8 on a channel with a live connecting transport, followed
by timer, close and open events (none of which revives the channel). -/
theorem disconnect_terminal_witness :
    (handleDisconnect (handleConnect true initialChannel)).connectionState = .disconnected ∧
    (handleDisconnect (handleConnect true initialChannel)).lastCloseCode = some 1000 ∧
    (channelRun 5 [.timer true, .closeEvt, .openEvt]
        (handleDisconnect (handleConnect true initialChannel))).socketsCreated
      = (handleDisconnect (handleConnect true initialChannel)).socketsCreated := by
  have h := disconnect_terminal (handleConnect true initialChannel) 5
    [.timer true, .closeEvt, .openEvt] (by decide)
  exact ⟨h.1, h.2.2.2.1 (by decide), h.2.2.2.2.1⟩

/-- C7: a credential pair with an empty or whitespace-only field is
rejected with result `false` independently of the probe outcomes (the
rejection is local, before any network call); the DashScope validation is
invalid exactly on an explicit 401 response and passes on any other
outcome including network failure; and for locally acceptable credentials
the overall validity is the conjunction of the two sub-validations. -/
theorem validateCredentials_spec :
    ∀ (creds : ApiCredentials) (nlsOutcome nlsOutcome2 : NLSProbeOutcome)
      (dashOutcome dashOutcome2 : FetchOutcome),
      ((trimIsEmpty creds.nlsToken || trimIsEmpty creds.dashScopeKey) = true →
        validateCredentials creds nlsOutcome dashOutcome = false ∧
        validateCredentials creds nlsOutcome dashOutcome
          = validateCredentials creds nlsOutcome2 dashOutcome2) ∧
      (∀ code, validateDashScopeKey (.status code) = false ↔ code = 401) ∧
      validateDashScopeKey .networkError = true ∧
      ((trimIsEmpty creds.nlsToken || trimIsEmpty creds.dashScopeKey) = false →
        validateCredentials creds nlsOutcome dashOutcome
          = (validateNLSToken nlsOutcome && validateDashScopeKey dashOutcome)) := by
  intro creds o1 o1b o2 o2b
  refine ⟨?_, ?_, rfl, ?_⟩
  · intro h
    simp [validateCredentials, h]
  · intro code
    simp [validateDashScopeKey]
  · intro h
    simp [validateCredentials, h]

/-- Witness for C7: a whitespace-only pair is rejected regardless of probe
outcomes; 401 invalidates; network failure passes; a normal pair validates
by conjunction. -/
theorem validateCredentials_spec_witness :
    validateCredentials ⟨[32], [32]⟩ .opened (.status 200) = false ∧
    validateDashScopeKey (.status 401) = false ∧
    validateDashScopeKey .networkError = true ∧
    validateCredentials ⟨[97], [98]⟩ .opened (.status 200) = true := by
  have h1 := validateCredentials_spec ⟨[32], [32]⟩ .opened .socketError
    (.status 200) .networkError
  have h2 := validateCredentials_spec ⟨[97], [98]⟩ .opened .opened
    (.status 200) (.status 200)
  refine ⟨(h1.1 (by decide)).1, (h2.2.1 401).mpr rfl, h2.2.2.1, ?_⟩
  rw [h2.2.2.2 (by decide)]
  decide

end MeetingMind
